import Mathlib

/-!
# Bohmian mechanics engine: a shallow embedding

This file embeds the engine of `src/QuantumWebApp/phys-eng-bohm.js` in Lean and
proves the specified properties about it.  JavaScript numbers are modelled as
real numbers.  The configuration's step count, an integer in every claim, is
modelled as an `Int`; the JS loop `for (let i = 0; i < steps; i++)` runs
`steps.toNat` iterations, which matches the JS loop-guard semantics for
integer `steps` (zero iterations when `steps` is negative).

The mutable run (`currentTime`, `currentPosition`, the growing `trajectory`
array, and the closed-over `config`) is modelled by explicit state passing: a
`RunState` record threaded through `loopStep`, one application per loop
iteration.  The spread copy `{ ...initialPosition }` at the start of
`runSimulation` is modelled by `initState` building a fresh `Position` record
from the configuration's fields, so position updates never touch the
configuration.
-/

namespace BohmianEngine

noncomputable section

/-- `H_BAR`: the reduced Planck constant in natural units. -/
def H_BAR : ℝ := 1

/-- `MASS`: the particle mass in natural units. -/
def MASS : ℝ := 1

/-- A complex number, an object `{ re, im }` of real components. -/
@[ext] structure Cplx where
  re : ℝ
  im : ℝ

/-- `complex(re, im)`: build a complex value. -/
def complex (re im : ℝ) : Cplx := ⟨re, im⟩

/-- `add(a, b)`: componentwise complex sum. -/
def add (a b : Cplx) : Cplx := complex (a.re + b.re) (a.im + b.im)

/-- `multiply(a, b)`: complex product. -/
def multiply (a b : Cplx) : Cplx :=
  complex (a.re * b.re - a.im * b.im) (a.re * b.im + a.im * b.re)

/-- `divide(a, b)`: complex division guarded by the zero-denominator check
`denominator === 0`, in which case the placeholder `complex(0, 0)` is
returned. -/
def divide (a b : Cplx) : Cplx :=
  if b.re * b.re + b.im * b.im = 0 then complex 0 0
  else
    complex ((a.re * b.re + a.im * b.im) / (b.re * b.re + b.im * b.im))
      ((a.im * b.re - a.re * b.im) / (b.re * b.re + b.im * b.im))

/-- Parameters of one Gaussian wave packet (one slit). -/
@[ext] structure PacketParams where
  centerX : ℝ
  centerY : ℝ
  width : ℝ
  momentumX : ℝ
  momentumY : ℝ

/-- `gaussianPacket(x, y, params)`: value of a single Gaussian wave packet at
`(x, y)`, a Gaussian magnitude times a unit-modulus phase factor. -/
def gaussianPacket (x y : ℝ) (params : PacketParams) : Cplx :=
  multiply
    (complex
      (Real.exp (-((x - params.centerX) * (x - params.centerX) +
          (y - params.centerY) * (y - params.centerY)) /
        (4 * (params.width * params.width))))
      0)
    (complex
      (Real.cos ((params.momentumX * (x - params.centerX) +
          params.momentumY * (y - params.centerY)) / H_BAR))
      (Real.sin ((params.momentumX * (x - params.centerX) +
          params.momentumY * (y - params.centerY)) / H_BAR)))

/-- `gaussianPacketGradient(x, y, params)`: the two complex partial
derivatives `[dPsi_dx, dPsi_dy]`, returned as a pair. -/
def gaussianPacketGradient (x y : ℝ) (params : PacketParams) : Cplx × Cplx :=
  (multiply (gaussianPacket x y params)
      (complex (-(x - params.centerX) / (2 * (params.width * params.width)))
        (params.momentumX / H_BAR)),
   multiply (gaussianPacket x y params)
      (complex (-(y - params.centerY) / (2 * (params.width * params.width)))
        (params.momentumY / H_BAR)))

/-- A 2-D position `{ x, y }`. -/
@[ext] structure Position where
  x : ℝ
  y : ℝ

/-- One trajectory sample `{ t, x, y }`. -/
@[ext] structure TrajPoint where
  t : ℝ
  x : ℝ
  y : ℝ

/-- The simulation configuration passed to `runSimulation`. -/
@[ext] structure Config where
  initialPosition : Position
  slit1 : PacketParams
  slit2 : PacketParams
  dt : ℝ
  steps : ℤ

/-- The mutable state of one run: the (read-only) configuration in scope,
`currentTime`, `currentPosition`, and the `trajectory` array. -/
@[ext] structure RunState where
  config : Config
  currentTime : ℝ
  currentPosition : Position
  trajectory : List TrajPoint

/-- Steps 1-4 of the loop body: superpose the two packets' values and
gradients at `(x, y)`, divide gradient by value per axis, and take
`(H_BAR / MASS) *` the imaginary part, giving `(velocityX, velocityY)`. -/
def velocityAt (slit1 slit2 : PacketParams) (x y : ℝ) : ℝ × ℝ :=
  ((H_BAR / MASS) *
      (divide (add (gaussianPacketGradient x y slit1).1 (gaussianPacketGradient x y slit2).1)
        (add (gaussianPacket x y slit1) (gaussianPacket x y slit2))).im,
   (H_BAR / MASS) *
      (divide (add (gaussianPacketGradient x y slit1).2 (gaussianPacketGradient x y slit2).2)
        (add (gaussianPacket x y slit1) (gaussianPacket x y slit2))).im)

/-- Step 5 of the loop body: the Euler position update
`new_pos = old_pos + v * dt`. -/
def nextPosition (slit1 slit2 : PacketParams) (dt : ℝ) (p : Position) : Position :=
  ⟨p.x + (velocityAt slit1 slit2 p.x p.y).1 * dt,
   p.y + (velocityAt slit1 slit2 p.x p.y).2 * dt⟩

/-- The state just before the loop: time 0, `currentPosition` a fresh copy of
`initialPosition`, and the trajectory holding the initial sample. -/
def initState (config : Config) : RunState :=
  ⟨config, 0, ⟨config.initialPosition.x, config.initialPosition.y⟩,
   [⟨0, config.initialPosition.x, config.initialPosition.y⟩]⟩

/-- One iteration of the `for` loop: update position and time, push the new
sample; the configuration component is read but never written. -/
def loopStep (s : RunState) : RunState :=
  ⟨s.config,
   s.currentTime + s.config.dt,
   nextPosition s.config.slit1 s.config.slit2 s.config.dt s.currentPosition,
   s.trajectory ++
     [⟨s.currentTime + s.config.dt,
       (nextPosition s.config.slit1 s.config.slit2 s.config.dt s.currentPosition).x,
       (nextPosition s.config.slit1 s.config.slit2 s.config.dt s.currentPosition).y⟩]⟩

/-- `runSimulation(config)`: run the loop `steps.toNat` times from the
initial state and return the accumulated trajectory. -/
def runSimulation (config : Config) : List TrajPoint :=
  (loopStep^[config.steps.toNat] (initState config)).trajectory

/-- The particle position after `n` Euler steps. -/
def posAt (config : Config) (n : ℕ) : Position :=
  (nextPosition config.slit1 config.slit2 config.dt)^[n]
    ⟨config.initialPosition.x, config.initialPosition.y⟩

/-- The `i`-th trajectory sample: time `i * dt` at position `posAt config i`. -/
def trajF (config : Config) (i : ℕ) : TrajPoint :=
  ⟨(i : ℝ) * config.dt, (posAt config i).x, (posAt config i).y⟩

/-- A concrete valid configuration with mirror-symmetric slits, used to
instantiate the universally quantified theorems. -/
def sampleConfig : Config :=
  ⟨⟨0, 0⟩, ⟨0, 1, 1, 0, 1⟩, ⟨0, -1, 1, 0, -1⟩, 1, 2⟩

/-- A configuration that violates validity (`dt = -1` is non-positive). -/
def invalidConfig : Config :=
  ⟨⟨0, 0⟩, ⟨0, 1, 1, 0, 1⟩, ⟨0, -1, 1, 0, 1⟩, -1, 1⟩

/-- A configuration with a negative step count. -/
def negStepsConfig : Config :=
  ⟨⟨0, 0⟩, ⟨0, 1, 1, 0, 1⟩, ⟨0, -1, 1, 0, 1⟩, 1, -3⟩

lemma loopStep_config (s : RunState) : (loopStep s).config = s.config := rfl

lemma loopStep_time (s : RunState) :
    (loopStep s).currentTime = s.currentTime + s.config.dt := rfl

lemma loopStep_pos (s : RunState) :
    (loopStep s).currentPosition =
      nextPosition s.config.slit1 s.config.slit2 s.config.dt s.currentPosition := rfl

lemma loopStep_traj (s : RunState) :
    (loopStep s).trajectory =
      s.trajectory ++
        [⟨s.currentTime + s.config.dt,
          (nextPosition s.config.slit1 s.config.slit2 s.config.dt s.currentPosition).x,
          (nextPosition s.config.slit1 s.config.slit2 s.config.dt s.currentPosition).y⟩] := rfl

lemma run_config (config : Config) (n : ℕ) :
    (loopStep^[n] (initState config)).config = config := by
  induction n with
  | zero => rfl
  | succ n ih => rw [Function.iterate_succ_apply', loopStep_config, ih]

lemma run_time (config : Config) (n : ℕ) :
    (loopStep^[n] (initState config)).currentTime = (n : ℝ) * config.dt := by
  induction n with
  | zero => simp [initState]
  | succ n ih =>
    rw [Function.iterate_succ_apply', loopStep_time, run_config, ih]
    push_cast
    ring

lemma run_pos (config : Config) (n : ℕ) :
    (loopStep^[n] (initState config)).currentPosition = posAt config n := by
  induction n with
  | zero => rfl
  | succ n ih =>
    rw [Function.iterate_succ_apply', loopStep_pos, run_config, ih]
    simp only [posAt, Function.iterate_succ_apply']

lemma run_traj (config : Config) (n : ℕ) :
    (loopStep^[n] (initState config)).trajectory =
      (List.range (n + 1)).map (trajF config) := by
  induction n with
  | zero =>
    simp [initState, trajF, posAt, List.range_succ]
  | succ n ih =>
    rw [Function.iterate_succ_apply', loopStep_traj, ih, run_config, run_time, run_pos]
    have hp : trajF config (n + 1) =
        ⟨(n : ℝ) * config.dt + config.dt,
         (nextPosition config.slit1 config.slit2 config.dt (posAt config n)).x,
         (nextPosition config.slit1 config.slit2 config.dt (posAt config n)).y⟩ := by
      simp only [trajF, posAt, Function.iterate_succ_apply']
      congr 1
      push_cast
      ring
    conv_rhs => rw [List.range_succ]
    rw [List.map_append, List.map_singleton, hp]

lemma runSimulation_eq (config : Config) :
    runSimulation config = (List.range (config.steps.toNat + 1)).map (trajF config) :=
  run_traj config _

lemma length_runSimulation (config : Config) :
    (runSimulation config).length = config.steps.toNat + 1 := by
  rw [runSimulation_eq, List.length_map, List.length_range]

lemma head_runSimulation (config : Config) :
    (runSimulation config).head? =
      some ⟨0, config.initialPosition.x, config.initialPosition.y⟩ := by
  rw [runSimulation_eq, List.range_succ_eq_map]
  simp [trajF, posAt]

lemma runSimulation_getD (config : Config) (i : ℕ) (hi : i ≤ config.steps.toNat)
    (d : TrajPoint) :
    (runSimulation config).getD i d = trajF config i := by
  rw [runSimulation_eq, List.getD_eq_getElem?_getD, List.getElem?_map,
    List.getElem?_range (by omega)]
  rfl

lemma divide_denom_zero (a : Cplx) : divide a (complex 0 0) = complex 0 0 := by
  unfold divide complex
  norm_num

lemma divide_num_zero (b : Cplx) : divide (complex 0 0) b = complex 0 0 := by
  unfold divide complex
  split_ifs <;> simp

lemma velocityAt_of_total_zero (slit1 slit2 : PacketParams) (x y : ℝ)
    (h : add (gaussianPacket x y slit1) (gaussianPacket x y slit2) = complex 0 0) :
    velocityAt slit1 slit2 x y = (0, 0) := by
  unfold velocityAt
  rw [h, divide_denom_zero, divide_denom_zero]
  simp [complex]

lemma velocity_component_zero (g v : Cplx) (hg : g = complex 0 0) :
    (H_BAR / MASS) * (divide g v).im = 0 := by
  rw [hg, divide_num_zero]
  simp [complex]

/-- C2: for every valid configuration the trajectory has exactly `steps + 1`
entries; in particular a zero-step run yields exactly one entry. -/
theorem runSimulation_length_claim (config : Config)
    (hw1 : 0 < config.slit1.width) (hw2 : 0 < config.slit2.width)
    (hdt : 0 < config.dt) (hsteps : 0 ≤ config.steps) :
    ((runSimulation config).length : ℤ) = config.steps + 1 ∧
    (config.steps = 0 → (runSimulation config).length = 1) := by
  refine ⟨?_, ?_⟩
  · rw [length_runSimulation]
    push_cast [Int.toNat_of_nonneg hsteps]
    ring
  · intro h
    rw [length_runSimulation]
    simp [h]

/-- Witness for C2 at `sampleConfig`. -/
theorem runSimulation_length_claim_witness :
    0 < sampleConfig.slit1.width ∧ 0 < sampleConfig.slit2.width ∧
    0 < sampleConfig.dt ∧ 0 ≤ sampleConfig.steps ∧
    (((runSimulation sampleConfig).length : ℤ) = sampleConfig.steps + 1 ∧
      (sampleConfig.steps = 0 → (runSimulation sampleConfig).length = 1)) :=
  ⟨by norm_num [sampleConfig], by norm_num [sampleConfig], by norm_num [sampleConfig],
   by norm_num [sampleConfig],
   runSimulation_length_claim sampleConfig (by norm_num [sampleConfig])
     (by norm_num [sampleConfig]) (by norm_num [sampleConfig]) (by norm_num [sampleConfig])⟩

/-- C3: the first trajectory entry is exactly
`{t: 0, x: initialPosition.x, y: initialPosition.y}`. -/
theorem runSimulation_head (config : Config) :
    (runSimulation config).head? =
      some ⟨0, config.initialPosition.x, config.initialPosition.y⟩ :=
  head_runSimulation config

/-- C4 counterexample: `invalidConfig` has non-positive `dt`, yet
`runSimulation` raises no configuration error and produces a trajectory that
goes beyond the initial sample instead of failing fast. -/
theorem runSimulation_no_validation_counterexample :
    invalidConfig.dt ≤ 0 ∧ 1 < (runSimulation invalidConfig).length := by
  constructor
  · norm_num [invalidConfig]
  · rw [length_runSimulation]
    norm_num [invalidConfig]

/-- C4 amended: `runSimulation` performs no configuration validation and
reports no error; for every configuration, valid or not, it runs
`max(steps, 0)` iterations and returns a full trajectory of
`max(steps, 0) + 1` entries starting from the initial sample. -/
theorem runSimulation_no_validation (config : Config) :
    (runSimulation config).length = config.steps.toNat + 1 ∧
    (runSimulation config).head? =
      some ⟨0, config.initialPosition.x, config.initialPosition.y⟩ :=
  ⟨length_runSimulation config, head_runSimulation config⟩

/-- C5: `divide` returns the zero placeholder exactly when the denominator's
components are both zero, and the standard complex quotient
`(a * conjugate b) / normSq b` otherwise; in particular
`divide((1,0),(0,0)) = (0,0)`. -/
theorem divide_spec (a b : Cplx) :
    divide a b =
      (if b.re = 0 ∧ b.im = 0 then complex 0 0
       else
         complex ((a.re * b.re + a.im * b.im) / (b.re * b.re + b.im * b.im))
           ((a.im * b.re - a.re * b.im) / (b.re * b.re + b.im * b.im))) ∧
    divide (complex 1 0) (complex 0 0) = complex 0 0 := by
  constructor
  · unfold divide
    by_cases h : b.re = 0 ∧ b.im = 0
    · rw [if_pos (mul_self_add_mul_self_eq_zero.mpr h), if_pos h]
    · rw [if_neg (fun hc => h (mul_self_add_mul_self_eq_zero.mp hc)), if_neg h]
  · exact divide_denom_zero _

/-- C9: a run never mutates its configuration: the configuration component of
the final run state equals the input configuration, so `initialPosition`,
`slit1`, `slit2`, `dt` and `steps` all keep their original values. -/
theorem runSimulation_preserves_config (config : Config) :
    (loopStep^[config.steps.toNat] (initState config)).config = config ∧
    (loopStep^[config.steps.toNat] (initState config)).config.initialPosition =
      config.initialPosition ∧
    (loopStep^[config.steps.toNat] (initState config)).config.slit1 = config.slit1 ∧
    (loopStep^[config.steps.toNat] (initState config)).config.slit2 = config.slit2 ∧
    (loopStep^[config.steps.toNat] (initState config)).config.dt = config.dt ∧
    (loopStep^[config.steps.toNat] (initState config)).config.steps = config.steps := by
  have h := run_config config config.steps.toNat
  exact ⟨h, by rw [h], by rw [h], by rw [h], by rw [h], by rw [h]⟩

/-- C10: with a negative step count the loop body never runs, no error is
raised, and the result is exactly the one-entry initial trajectory. -/
theorem runSimulation_negative_steps (config : Config) (h : config.steps < 0) :
    runSimulation config =
      [⟨0, config.initialPosition.x, config.initialPosition.y⟩] := by
  unfold runSimulation
  rw [Int.toNat_of_nonpos (le_of_lt h)]
  rfl

/-- Witness for C10 at `negStepsConfig`. -/
theorem runSimulation_negative_steps_witness :
    negStepsConfig.steps < 0 ∧
    runSimulation negStepsConfig =
      [⟨0, negStepsConfig.initialPosition.x, negStepsConfig.initialPosition.y⟩] :=
  ⟨by norm_num [negStepsConfig],
   runSimulation_negative_steps negStepsConfig (by norm_num [negStepsConfig])⟩

/-- C1: trajectory entry `i + 1` is entry `i` advanced one explicit Euler
step: time grows by exactly `dt` (hence strictly), and each coordinate moves
by the guiding-equation velocity at entry `i`'s position times `dt`. -/
theorem runSimulation_step_formula (config : Config) (i : ℕ)
    (hw1 : 0 < config.slit1.width) (hw2 : 0 < config.slit2.width)
    (hdt : 0 < config.dt) (hsteps : 0 ≤ config.steps)
    (hi : (i : ℤ) < config.steps) :
    ((runSimulation config).getD (i + 1) ⟨0, 0, 0⟩).t
        = ((runSimulation config).getD i ⟨0, 0, 0⟩).t + config.dt ∧
    ((runSimulation config).getD (i + 1) ⟨0, 0, 0⟩).x
        = ((runSimulation config).getD i ⟨0, 0, 0⟩).x
          + (velocityAt config.slit1 config.slit2
              ((runSimulation config).getD i ⟨0, 0, 0⟩).x
              ((runSimulation config).getD i ⟨0, 0, 0⟩).y).1 * config.dt ∧
    ((runSimulation config).getD (i + 1) ⟨0, 0, 0⟩).y
        = ((runSimulation config).getD i ⟨0, 0, 0⟩).y
          + (velocityAt config.slit1 config.slit2
              ((runSimulation config).getD i ⟨0, 0, 0⟩).x
              ((runSimulation config).getD i ⟨0, 0, 0⟩).y).2 * config.dt ∧
    ((runSimulation config).getD i ⟨0, 0, 0⟩).t
        < ((runSimulation config).getD (i + 1) ⟨0, 0, 0⟩).t := by
  have hin : i < config.steps.toNat := by omega
  rw [runSimulation_getD config i (le_of_lt hin) _,
    runSimulation_getD config (i + 1) (by omega) _]
  refine ⟨?_, ?_, ?_, ?_⟩
  · simp only [trajF]
    push_cast
    ring
  · simp only [trajF, posAt, Function.iterate_succ_apply', nextPosition]
  · simp only [trajF, posAt, Function.iterate_succ_apply', nextPosition]
  · simp only [trajF]
    have hlt : (i : ℝ) < ((i + 1 : ℕ) : ℝ) := by push_cast; linarith
    exact mul_lt_mul_of_pos_right hlt hdt

/-- Witness for C1 at `sampleConfig`, step index 0. -/
theorem runSimulation_step_formula_witness :
    0 < sampleConfig.slit1.width ∧ 0 < sampleConfig.slit2.width ∧
    0 < sampleConfig.dt ∧ 0 ≤ sampleConfig.steps ∧
    ((0 : ℕ) : ℤ) < sampleConfig.steps ∧
    (((runSimulation sampleConfig).getD (0 + 1) ⟨0, 0, 0⟩).t
        = ((runSimulation sampleConfig).getD 0 ⟨0, 0, 0⟩).t + sampleConfig.dt ∧
     ((runSimulation sampleConfig).getD (0 + 1) ⟨0, 0, 0⟩).x
        = ((runSimulation sampleConfig).getD 0 ⟨0, 0, 0⟩).x
          + (velocityAt sampleConfig.slit1 sampleConfig.slit2
              ((runSimulation sampleConfig).getD 0 ⟨0, 0, 0⟩).x
              ((runSimulation sampleConfig).getD 0 ⟨0, 0, 0⟩).y).1 * sampleConfig.dt ∧
     ((runSimulation sampleConfig).getD (0 + 1) ⟨0, 0, 0⟩).y
        = ((runSimulation sampleConfig).getD 0 ⟨0, 0, 0⟩).y
          + (velocityAt sampleConfig.slit1 sampleConfig.slit2
              ((runSimulation sampleConfig).getD 0 ⟨0, 0, 0⟩).x
              ((runSimulation sampleConfig).getD 0 ⟨0, 0, 0⟩).y).2 * sampleConfig.dt ∧
     ((runSimulation sampleConfig).getD 0 ⟨0, 0, 0⟩).t
        < ((runSimulation sampleConfig).getD (0 + 1) ⟨0, 0, 0⟩).t) :=
  ⟨by norm_num [sampleConfig], by norm_num [sampleConfig], by norm_num [sampleConfig],
   by norm_num [sampleConfig], by norm_num [sampleConfig],
   runSimulation_step_formula sampleConfig 0 (by norm_num [sampleConfig])
     (by norm_num [sampleConfig]) (by norm_num [sampleConfig]) (by norm_num [sampleConfig])
     (by norm_num [sampleConfig])⟩

/-- C6: the packet value is the Gaussian magnitude times the plane-wave
phase, and the gradient is the packet value scaled per axis by the chain-rule
factor `(-(a - center_a)/(2 sigma^2), momentum_a / H_BAR)`. -/
theorem gaussianPacket_spec (x y : ℝ) (p : PacketParams) (hw : 0 < p.width) :
    gaussianPacket x y p =
      multiply
        (complex
          (Real.exp (-((x - p.centerX) ^ 2 + (y - p.centerY) ^ 2) /
            (4 * p.width ^ 2))) 0)
        (complex
          (Real.cos ((p.momentumX * (x - p.centerX) +
            p.momentumY * (y - p.centerY)) / H_BAR))
          (Real.sin ((p.momentumX * (x - p.centerX) +
            p.momentumY * (y - p.centerY)) / H_BAR))) ∧
    gaussianPacketGradient x y p =
      (multiply (gaussianPacket x y p)
         (complex (-(x - p.centerX) / (2 * p.width ^ 2)) (p.momentumX / H_BAR)),
       multiply (gaussianPacket x y p)
         (complex (-(y - p.centerY) / (2 * p.width ^ 2)) (p.momentumY / H_BAR))) := by
  have h1 : -((x - p.centerX) ^ 2 + (y - p.centerY) ^ 2) / (4 * p.width ^ 2)
      = -((x - p.centerX) * (x - p.centerX) + (y - p.centerY) * (y - p.centerY)) /
        (4 * (p.width * p.width)) := by ring
  have h2 : -(x - p.centerX) / (2 * p.width ^ 2)
      = -(x - p.centerX) / (2 * (p.width * p.width)) := by ring
  have h3 : -(y - p.centerY) / (2 * p.width ^ 2)
      = -(y - p.centerY) / (2 * (p.width * p.width)) := by ring
  rw [h1, h2, h3]
  exact ⟨rfl, rfl⟩

/-- Witness for C6 at the origin with `sampleConfig.slit1`. -/
theorem gaussianPacket_spec_witness :
    0 < sampleConfig.slit1.width ∧
    (gaussianPacket 0 0 sampleConfig.slit1 =
      multiply
        (complex
          (Real.exp (-((0 - sampleConfig.slit1.centerX) ^ 2 +
              (0 - sampleConfig.slit1.centerY) ^ 2) /
            (4 * sampleConfig.slit1.width ^ 2))) 0)
        (complex
          (Real.cos ((sampleConfig.slit1.momentumX * (0 - sampleConfig.slit1.centerX) +
            sampleConfig.slit1.momentumY * (0 - sampleConfig.slit1.centerY)) / H_BAR))
          (Real.sin ((sampleConfig.slit1.momentumX * (0 - sampleConfig.slit1.centerX) +
            sampleConfig.slit1.momentumY * (0 - sampleConfig.slit1.centerY)) / H_BAR))) ∧
      gaussianPacketGradient 0 0 sampleConfig.slit1 =
        (multiply (gaussianPacket 0 0 sampleConfig.slit1)
           (complex (-(0 - sampleConfig.slit1.centerX) / (2 * sampleConfig.slit1.width ^ 2))
             (sampleConfig.slit1.momentumX / H_BAR)),
         multiply (gaussianPacket 0 0 sampleConfig.slit1)
           (complex (-(0 - sampleConfig.slit1.centerY) / (2 * sampleConfig.slit1.width ^ 2))
             (sampleConfig.slit1.momentumY / H_BAR)))) :=
  ⟨by norm_num [sampleConfig],
   gaussianPacket_spec 0 0 sampleConfig.slit1 (by norm_num [sampleConfig])⟩

/-- C7: the loop always runs to completion (`steps + 1` entries, no early
exit); at any step whose superposed wave value is exactly zero the guiding
velocity is `(0, 0)`, so the position is unchanged for that step while time
still advances by `dt`. -/
theorem runSimulation_node_safety (config : Config)
    (hw1 : 0 < config.slit1.width) (hw2 : 0 < config.slit2.width)
    (hdt : 0 < config.dt) (hsteps : 0 ≤ config.steps) :
    ((runSimulation config).length : ℤ) = config.steps + 1 ∧
    ∀ i : ℕ, (i : ℤ) < config.steps →
      add (gaussianPacket ((runSimulation config).getD i ⟨0, 0, 0⟩).x
            ((runSimulation config).getD i ⟨0, 0, 0⟩).y config.slit1)
          (gaussianPacket ((runSimulation config).getD i ⟨0, 0, 0⟩).x
            ((runSimulation config).getD i ⟨0, 0, 0⟩).y config.slit2) = complex 0 0 →
      velocityAt config.slit1 config.slit2
          ((runSimulation config).getD i ⟨0, 0, 0⟩).x
          ((runSimulation config).getD i ⟨0, 0, 0⟩).y = (0, 0) ∧
      (runSimulation config).getD (i + 1) ⟨0, 0, 0⟩ =
        ⟨((runSimulation config).getD i ⟨0, 0, 0⟩).t + config.dt,
         ((runSimulation config).getD i ⟨0, 0, 0⟩).x,
         ((runSimulation config).getD i ⟨0, 0, 0⟩).y⟩ := by
  refine ⟨?_, ?_⟩
  · rw [length_runSimulation]
    push_cast [Int.toNat_of_nonneg hsteps]
    ring
  · intro i hi h
    have hin : i < config.steps.toNat := by omega
    rw [runSimulation_getD config i (le_of_lt hin) _] at h ⊢
    rw [runSimulation_getD config (i + 1) (by omega) _]
    simp only [trajF] at h ⊢
    have hv := velocityAt_of_total_zero config.slit1 config.slit2
      (posAt config i).x (posAt config i).y h
    refine ⟨hv, ?_⟩
    have hstep : posAt config (i + 1) =
        nextPosition config.slit1 config.slit2 config.dt (posAt config i) := by
      simp only [posAt, Function.iterate_succ_apply']
    simp only [hstep, nextPosition, hv, zero_mul, add_zero]
    congr 1
    push_cast
    ring

/-- Witness for C7 at `sampleConfig`. -/
theorem runSimulation_node_safety_witness :
    0 < sampleConfig.slit1.width ∧ 0 < sampleConfig.slit2.width ∧
    0 < sampleConfig.dt ∧ 0 ≤ sampleConfig.steps ∧
    (((runSimulation sampleConfig).length : ℤ) = sampleConfig.steps + 1 ∧
     ∀ i : ℕ, (i : ℤ) < sampleConfig.steps →
      add (gaussianPacket ((runSimulation sampleConfig).getD i ⟨0, 0, 0⟩).x
            ((runSimulation sampleConfig).getD i ⟨0, 0, 0⟩).y sampleConfig.slit1)
          (gaussianPacket ((runSimulation sampleConfig).getD i ⟨0, 0, 0⟩).x
            ((runSimulation sampleConfig).getD i ⟨0, 0, 0⟩).y sampleConfig.slit2)
            = complex 0 0 →
      velocityAt sampleConfig.slit1 sampleConfig.slit2
          ((runSimulation sampleConfig).getD i ⟨0, 0, 0⟩).x
          ((runSimulation sampleConfig).getD i ⟨0, 0, 0⟩).y = (0, 0) ∧
      (runSimulation sampleConfig).getD (i + 1) ⟨0, 0, 0⟩ =
        ⟨((runSimulation sampleConfig).getD i ⟨0, 0, 0⟩).t + sampleConfig.dt,
         ((runSimulation sampleConfig).getD i ⟨0, 0, 0⟩).x,
         ((runSimulation sampleConfig).getD i ⟨0, 0, 0⟩).y⟩) :=
  ⟨by norm_num [sampleConfig], by norm_num [sampleConfig], by norm_num [sampleConfig],
   by norm_num [sampleConfig],
   runSimulation_node_safety sampleConfig (by norm_num [sampleConfig])
     (by norm_num [sampleConfig]) (by norm_num [sampleConfig]) (by norm_num [sampleConfig])⟩

/-- C8: with the slits mirror-symmetric about the x-axis (same centerX,
opposite centerY, identical width, momentum reflected so its magnitude is
identical) and the particle starting on the axis, the y-component of the
guiding velocity used in the first integration step is exactly zero. -/
theorem velocityY_zero_of_mirror_symmetry (config : Config)
    (hcx : config.slit2.centerX = config.slit1.centerX)
    (hcy : config.slit2.centerY = -config.slit1.centerY)
    (hw : config.slit2.width = config.slit1.width)
    (hpx : config.slit2.momentumX = config.slit1.momentumX)
    (hpy : config.slit2.momentumY = -config.slit1.momentumY)
    (hy : config.initialPosition.y = 0) :
    (velocityAt config.slit1 config.slit2
      config.initialPosition.x config.initialPosition.y).2 = 0 := by
  obtain ⟨⟨X, Y⟩, ⟨cx, cy, w, px, py⟩, ⟨cx2, cy2, w2, px2, py2⟩, dt, steps⟩ := config
  dsimp only at hcx hcy hw hpx hpy hy ⊢
  subst hcx hcy hw hpx hpy hy
  simp only [velocityAt]
  refine velocity_component_zero _ _ ?_
  have hpsi : gaussianPacket X 0 (⟨cx2, -cy, w2, px2, -py⟩ : PacketParams)
      = gaussianPacket X 0 ⟨cx2, cy, w2, px2, py⟩ := by
    unfold gaussianPacket
    rw [show ((0 : ℝ) - -cy) * (0 - -cy) = (0 - cy) * (0 - cy) from by ring,
      show px2 * (X - cx2) + -py * ((0 : ℝ) - -cy)
          = px2 * (X - cx2) + py * (0 - cy) from by ring]
  simp only [gaussianPacketGradient]
  rw [hpsi]
  simp only [add, multiply, complex]
  rw [Cplx.mk.injEq]
  constructor <;> ring

/-- Witness for C8 at `sampleConfig`. -/
theorem velocityY_zero_of_mirror_symmetry_witness :
    sampleConfig.slit2.centerX = sampleConfig.slit1.centerX ∧
    sampleConfig.slit2.centerY = -sampleConfig.slit1.centerY ∧
    sampleConfig.slit2.width = sampleConfig.slit1.width ∧
    sampleConfig.slit2.momentumX = sampleConfig.slit1.momentumX ∧
    sampleConfig.slit2.momentumY = -sampleConfig.slit1.momentumY ∧
    sampleConfig.initialPosition.y = 0 ∧
    (velocityAt sampleConfig.slit1 sampleConfig.slit2
      sampleConfig.initialPosition.x sampleConfig.initialPosition.y).2 = 0 :=
  ⟨by norm_num [sampleConfig], by norm_num [sampleConfig], by norm_num [sampleConfig],
   by norm_num [sampleConfig], by norm_num [sampleConfig], by norm_num [sampleConfig],
   velocityY_zero_of_mirror_symmetry sampleConfig (by norm_num [sampleConfig])
     (by norm_num [sampleConfig]) (by norm_num [sampleConfig]) (by norm_num [sampleConfig])
     (by norm_num [sampleConfig]) (by norm_num [sampleConfig])⟩

end

end BohmianEngine
